import Mathlib

/-!
Verification of the rttyd session-bridging core against its specification.

The embedding follows the two source files:
* `crates/rtty/src/command.rs` — `start_command`: the output pump (a
  `tokio::select!` loop over PTY reads, `child.wait()`, and the abort
  notifier), and the bounded input channel.
* `crates/rttyd/src/main.rs` — `handle_socket`: the control loop that
  decodes inbound WebSocket frames into input commands and routes pump
  events back to the peer.

Concurrency is embedded by a schedule: the `tokio::select!` loop of the
output pump is modelled as a function consuming the list of branch firings
(`PumpEvent`) the scheduler delivers, producing the list of yielded items.
The abort notifier (`tokio::sync::Notify` used with `notify_waiters` /
`notified().await`) is modelled as its own small state machine, faithful to
tokio's documented semantics: `notify_waiters` wakes exactly the currently
registered waiters and stores no permit for future waiters.
-/

/-- Bytes are modelled as lists of natural numbers (each intended `< 256`);
none of the verified properties depend on the byte bound. -/
abbrev Bytes := List Nat

/-- `pty_process::Size` — terminal size, `Size::new(row, col)`. -/
structure Size where
  row : Nat
  col : Nat
deriving DecidableEq, Repr

/-- `CommandOutputItem` from `command.rs`: items yielded by the output pump.
`Error` is the non-fatal warning-class item (the bridge only logs it). -/
inductive CommandOutputItem where
  | Output (b : Bytes)
  | Error (s : String)
  | Exit (s : String)
deriving DecidableEq, Repr

/-- `CommandInputItem` from `command.rs`: commands consumed by the input pump. -/
inductive CommandInputItem where
  | Input (b : Bytes)
  | InputString (s : String)
  | Resize (s : Size)
deriving DecidableEq, Repr

/-- One firing of the `tokio::select!` in `start_command`'s output loop:
which branch the scheduler delivered, with its payload.
`readOk`/`readErr` are the two outcomes of `out_stream.next()`;
`waitOk code`/`waitErr` are the two outcomes of `child.wait()` (the exit
code is `status.code()`, an optional value in the source);
`aborted` is `aborter.notified()` winning the select. -/
inductive PumpEvent where
  | readOk (chunk : Bytes)
  | readErr (msg : String)
  | waitOk (code : Option Int)
  | waitErr (msg : String)
  | aborted
deriving DecidableEq, Repr

/-- The error string of a read racing with PTY close, compared verbatim in
`command.rs` line 57. -/
def benignPtyError : String := "Input/output error (os error 5)"

/-- Observable result of running the output pump on a schedule:
the yielded items, how many times `child.start_kill()` was invoked, whether
`exited.notify_waiters()` ran, and whether the loop hit `break`. -/
structure PumpResult where
  events : List CommandOutputItem
  killAttempts : Nat
  exitedNotified : Bool
  terminated : Bool
deriving DecidableEq, Repr

/-- The output pump loop of `start_command` (`command.rs` lines 49-82), as a
function of the schedule of select-branch firings. A schedule that ends
before a terminal branch fires leaves the pump suspended
(`terminated = false`). -/
def runPump : List PumpEvent → PumpResult
  | [] => ⟨[], 0, false, false⟩
  | .readOk chunk :: rest =>
      let r := runPump rest
      ⟨.Output chunk :: r.events, r.killAttempts, r.exitedNotified, r.terminated⟩
  | .readErr msg :: rest =>
      if msg = benignPtyError then runPump rest
      else
        let r := runPump rest
        ⟨.Error msg :: r.events, r.killAttempts, r.exitedNotified, r.terminated⟩
  | .waitOk code :: _ =>
      ⟨[.Exit ("Command exited with status code: " ++ toString (code.getD 0))],
        0, true, true⟩
  | .waitErr msg :: rest =>
      let r := runPump rest
      ⟨.Error msg :: r.events, r.killAttempts, r.exitedNotified, r.terminated⟩
  | .aborted :: _ =>
      ⟨[.Exit "Aborted"], 1, true, true⟩

/-- The two select branches that `break` out of the pump loop. -/
def isTerminal : PumpEvent → Bool
  | .waitOk _ => true
  | .aborted => true
  | _ => false

/-- First terminal event of a schedule, if any. -/
def firstTerminal : List PumpEvent → Option PumpEvent
  | [] => none
  | e :: rest => if isTerminal e then some e else firstTerminal rest

/-- The `Exit` item the pump yields for a terminal branch (junk on
non-terminal events, which never reach it in the theorems). -/
def terminalExit : PumpEvent → CommandOutputItem
  | .waitOk code =>
      .Exit ("Command exited with status code: " ++ toString (code.getD 0))
  | .aborted => .Exit "Aborted"
  | _ => .Exit ""

/-- PTY chunks delivered before the first terminal branch fires. -/
def chunksBefore : List PumpEvent → List Bytes
  | [] => []
  | e :: rest =>
      if isTerminal e then []
      else
        match e with
        | .readOk c => c :: chunksBefore rest
        | _ => chunksBefore rest

/-- Projection of an item list onto its `Output` payloads. -/
def dataChunks (out : List CommandOutputItem) : List Bytes :=
  out.filterMap fun i =>
    match i with
    | .Output b => some b
    | _ => none

/-- Number of `Exit` items in a list. -/
def countExits (out : List CommandOutputItem) : Nat :=
  out.countP fun i =>
    match i with
    | .Exit _ => true
    | _ => false

theorem dataChunks_nil : dataChunks [] = [] := rfl

theorem countExits_nil : countExits [] = 0 := rfl

theorem dataChunks_output (b : Bytes) (l : List CommandOutputItem) :
    dataChunks (.Output b :: l) = b :: dataChunks l := by
  simp [dataChunks]

theorem dataChunks_error (s : String) (l : List CommandOutputItem) :
    dataChunks (.Error s :: l) = dataChunks l := by
  simp [dataChunks]

theorem dataChunks_exit (s : String) (l : List CommandOutputItem) :
    dataChunks (.Exit s :: l) = dataChunks l := by
  simp [dataChunks]

theorem countExits_output (b : Bytes) (l : List CommandOutputItem) :
    countExits (.Output b :: l) = countExits l := by
  simp [countExits, List.countP_cons]

theorem countExits_error (s : String) (l : List CommandOutputItem) :
    countExits (.Error s :: l) = countExits l := by
  simp [countExits, List.countP_cons]

theorem countExits_exit (s : String) (l : List CommandOutputItem) :
    countExits (.Exit s :: l) = countExits l + 1 := by
  simp [countExits, List.countP_cons]

/-- Main structural lemma about the output pump: on any schedule whose
first terminal branch is `t`, the `Output` payloads are exactly the chunks
delivered before `t`, the yielded items end in the single `Exit` item of
`t`, the loop breaks, `exited` is notified, and `start_kill` is invoked
exactly when `t` is the abort branch. -/
theorem runPump_spec (evs : List PumpEvent) (t : PumpEvent)
    (h : firstTerminal evs = some t) :
    dataChunks (runPump evs).events = chunksBefore evs ∧
    (∃ pre, (runPump evs).events = pre ++ [terminalExit t] ∧ countExits pre = 0) ∧
    (runPump evs).terminated = true ∧
    countExits (runPump evs).events = 1 ∧
    (runPump evs).killAttempts = (if t = .aborted then 1 else 0) ∧
    (runPump evs).exitedNotified = true := by
  induction evs with
  | nil => simp [firstTerminal] at h
  | cons e rest ih =>
    cases e with
    | readOk c =>
      have h' : firstTerminal rest = some t := by
        simpa [firstTerminal, isTerminal] using h
      obtain ⟨hd, ⟨pre, hpre, hc⟩, ht, hx, hk, hn⟩ := ih h'
      refine ⟨?_, ⟨.Output c :: pre, ?_, ?_⟩, ?_, ?_, ?_, ?_⟩
      · simp [runPump, dataChunks_output, hd, chunksBefore, isTerminal]
      · simp [runPump, hpre]
      · simp [countExits_output, hc]
      · simpa [runPump] using ht
      · simpa [runPump, countExits_output] using hx
      · simpa [runPump] using hk
      · simpa [runPump] using hn
    | readErr msg =>
      have h' : firstTerminal rest = some t := by
        simpa [firstTerminal, isTerminal] using h
      obtain ⟨hd, ⟨pre, hpre, hc⟩, ht, hx, hk, hn⟩ := ih h'
      by_cases hb : msg = benignPtyError
      · refine ⟨?_, ⟨pre, ?_, hc⟩, ?_, ?_, ?_, ?_⟩
        · simpa [runPump, hb, chunksBefore, isTerminal] using hd
        · simpa [runPump, hb] using hpre
        · simpa [runPump, hb] using ht
        · simpa [runPump, hb] using hx
        · simpa [runPump, hb] using hk
        · simpa [runPump, hb] using hn
      · refine ⟨?_, ⟨.Error msg :: pre, ?_, ?_⟩, ?_, ?_, ?_, ?_⟩
        · simp [runPump, hb, dataChunks_error, hd, chunksBefore, isTerminal]
        · simp [runPump, hb, hpre]
        · simp [countExits_error, hc]
        · simpa [runPump, hb] using ht
        · simpa [runPump, hb, countExits_error] using hx
        · simpa [runPump, hb] using hk
        · simpa [runPump, hb] using hn
    | waitOk code =>
      have ht : t = .waitOk code := by
        simpa [firstTerminal, isTerminal, eq_comm] using h
      subst ht
      exact ⟨by simp [runPump, chunksBefore, isTerminal, dataChunks],
        ⟨[], by simp [runPump, terminalExit], countExits_nil⟩,
        by simp [runPump],
        by simp [runPump, countExits_exit, countExits_nil],
        by simp [runPump],
        by simp [runPump]⟩
    | waitErr msg =>
      have h' : firstTerminal rest = some t := by
        simpa [firstTerminal, isTerminal] using h
      obtain ⟨hd, ⟨pre, hpre, hc⟩, ht, hx, hk, hn⟩ := ih h'
      refine ⟨?_, ⟨.Error msg :: pre, ?_, ?_⟩, ?_, ?_, ?_, ?_⟩
      · simp [runPump, dataChunks_error, hd, chunksBefore, isTerminal]
      · simp [runPump, hpre]
      · simp [countExits_error, hc]
      · simpa [runPump] using ht
      · simpa [runPump, countExits_error] using hx
      · simpa [runPump] using hk
      · simpa [runPump] using hn
    | aborted =>
      have ht : t = .aborted := by
        simpa [firstTerminal, isTerminal, eq_comm] using h
      subst ht
      exact ⟨by simp [runPump, chunksBefore, isTerminal, dataChunks],
        ⟨[], by simp [runPump, terminalExit], countExits_nil⟩,
        by simp [runPump],
        by simp [runPump, countExits_exit, countExits_nil],
        by simp [runPump],
        by simp [runPump]⟩

/-- C1. For every session, the output event stream produced by
`start_command` yields `Data` events that are exactly the PTY's output
chunks in emission order, followed by exactly one `Exit` event which is
always the last event of the stream; the process-exit and abort branches
are mutually exclusive terminal outcomes (only the first terminal branch
to fire determines the single `Exit`), so the `Exit` event is never
duplicated. Stated over any select schedule `evs` that reaches a terminal
branch. -/
theorem pump_data_then_single_exit (evs : List PumpEvent) (t : PumpEvent)
    (h : firstTerminal evs = some t) :
    dataChunks (runPump evs).events = chunksBefore evs ∧
    (∃ pre, (runPump evs).events = pre ++ [terminalExit t] ∧ countExits pre = 0) ∧
    (runPump evs).terminated = true ∧
    countExits (runPump evs).events = 1 := by
  obtain ⟨hd, hp, ht, hx, -, -⟩ := runPump_spec evs t h
  exact ⟨hd, hp, ht, hx⟩

/-- Witness for C1: a concrete schedule — one chunk `"h"`, then process
exit with code 0 — instantiating `pump_data_then_single_exit`. -/
theorem pump_data_then_single_exit_witness :
    dataChunks (runPump [PumpEvent.readOk [104], PumpEvent.waitOk (some 0)]).events
        = chunksBefore [PumpEvent.readOk [104], PumpEvent.waitOk (some 0)] ∧
    (∃ pre, (runPump [PumpEvent.readOk [104], PumpEvent.waitOk (some 0)]).events
        = pre ++ [terminalExit (PumpEvent.waitOk (some 0))] ∧ countExits pre = 0) ∧
    (runPump [PumpEvent.readOk [104], PumpEvent.waitOk (some 0)]).terminated = true ∧
    countExits (runPump [PumpEvent.readOk [104], PumpEvent.waitOk (some 0)]).events = 1 :=
  pump_data_then_single_exit [PumpEvent.readOk [104], PumpEvent.waitOk (some 0)]
    (PumpEvent.waitOk (some 0)) rfl

theorem runPump_congr_cons (e : PumpEvent) (l1 l2 : List PumpEvent)
    (h : runPump l1 = runPump l2) : runPump (e :: l1) = runPump (e :: l2) := by
  cases e <;> simp [runPump, h]

/-- Everything scheduled after the first firing of a terminal branch is
dead: the loop has already hit `break`. -/
theorem runPump_stops_after_abort (pre rest : List PumpEvent) :
    runPump (pre ++ .aborted :: rest) = runPump (pre ++ [.aborted]) := by
  induction pre with
  | nil => rfl
  | cons e p ih => exact runPump_congr_cons e _ _ ih

theorem firstTerminal_append_of_nonterminal (pre rest : List PumpEvent)
    (t : PumpEvent) (h : pre.all fun e => !isTerminal e) (ht : isTerminal t) :
    firstTerminal (pre ++ t :: rest) = some t := by
  induction pre with
  | nil => simp [firstTerminal, ht]
  | cons e p ih =>
    simp only [List.all_cons, Bool.and_eq_true, Bool.not_eq_true'] at h
    simp only [List.cons_append, firstTerminal, h.1, if_false, Bool.false_eq_true]
    exact ih h.2

/-- C2. If the abort branch fires while the pump is running (after any
run of non-terminal firings `pre`), the pump invokes `child.start_kill()`
exactly once, yields exactly one `Exit "Aborted"` item as its last item,
and terminates; delivering further firings after the abort — in
particular a second abort — changes nothing, so firing the signal twice
is observably the same as firing it once. -/
theorem abort_kills_once_single_exit (pre rest : List PumpEvent)
    (h : pre.all fun e => !isTerminal e) :
    runPump (pre ++ .aborted :: rest) = runPump (pre ++ [.aborted]) ∧
    (runPump (pre ++ .aborted :: rest)).killAttempts = 1 ∧
    countExits (runPump (pre ++ .aborted :: rest)).events = 1 ∧
    (∃ p, (runPump (pre ++ .aborted :: rest)).events
        = p ++ [CommandOutputItem.Exit "Aborted"] ∧ countExits p = 0) ∧
    (runPump (pre ++ .aborted :: rest)).terminated = true := by
  have hft : firstTerminal (pre ++ .aborted :: rest) = some .aborted :=
    firstTerminal_append_of_nonterminal pre rest .aborted h rfl
  obtain ⟨-, ⟨p, hp, hpc⟩, ht, hx, hk, -⟩ := runPump_spec _ _ hft
  exact ⟨runPump_stops_after_abort pre rest, by simpa using hk, hx,
    ⟨p, by simpa [terminalExit] using hp, hpc⟩, ht⟩

/-- Witness for C2: one chunk, then the abort branch, then a second
(dead) abort firing, instantiating `abort_kills_once_single_exit`. -/
theorem abort_kills_once_single_exit_witness :
    runPump ([PumpEvent.readOk [104]] ++ .aborted :: [PumpEvent.aborted])
        = runPump ([PumpEvent.readOk [104]] ++ [.aborted]) ∧
    (runPump ([PumpEvent.readOk [104]] ++ .aborted :: [PumpEvent.aborted])).killAttempts = 1 ∧
    countExits (runPump ([PumpEvent.readOk [104]] ++ .aborted :: [PumpEvent.aborted])).events = 1 ∧
    (∃ p, (runPump ([PumpEvent.readOk [104]] ++ .aborted :: [PumpEvent.aborted])).events
        = p ++ [CommandOutputItem.Exit "Aborted"] ∧ countExits p = 0) ∧
    (runPump ([PumpEvent.readOk [104]] ++ .aborted :: [PumpEvent.aborted])).terminated = true :=
  abort_kills_once_single_exit [PumpEvent.readOk [104]] [PumpEvent.aborted] rfl

/-- C6. A PTY read failing with the exact message
`"Input/output error (os error 5)"` is fully suppressed — the `continue`
branch yields nothing and changes nothing — while any other read error
yields a warning-class `Error` item carrying the message and the pump
continues (same termination status and kill count as without the error). -/
theorem benign_read_error_suppressed (msg : String) (rest : List PumpEvent)
    (h : msg ≠ benignPtyError) :
    runPump (.readErr benignPtyError :: rest) = runPump rest ∧
    (runPump (.readErr msg :: rest)).events
        = .Error msg :: (runPump rest).events ∧
    (runPump (.readErr msg :: rest)).terminated = (runPump rest).terminated ∧
    (runPump (.readErr msg :: rest)).killAttempts = (runPump rest).killAttempts := by
  refine ⟨by simp [runPump], ?_, ?_, ?_⟩ <;> simp [runPump, h]

/-- Witness for C6 at the concrete error message `"boom"` and the empty
continuation schedule. -/
theorem benign_read_error_suppressed_witness :
    runPump (.readErr benignPtyError :: []) = runPump [] ∧
    (runPump (.readErr "boom" :: [])).events
        = .Error "boom" :: (runPump []).events ∧
    (runPump (.readErr "boom" :: [])).terminated = (runPump []).terminated ∧
    (runPump (.readErr "boom" :: [])).killAttempts = (runPump []).killAttempts :=
  benign_read_error_suppressed "boom" [] (by decide)

/-- C7 counterexample: on a schedule consisting of a single failing
`child.wait()`, the pump yields a warning-class `Error` item — not an
`Exit`-class item — and does not terminate (the `Err` arm of the wait
branch has no `break`), contradicting the claim that a wait failure is a
terminal event. -/
theorem wait_error_not_terminal_cex :
    (runPump [PumpEvent.waitErr "x"]).events = [CommandOutputItem.Error "x"] ∧
    (runPump [PumpEvent.waitErr "x"]).terminated = false ∧
    countExits (runPump [PumpEvent.waitErr "x"]).events = 0 := by
  exact ⟨rfl, rfl, rfl⟩

/-- C7 amended: if the process-wait syscall fails, the pump yields a
warning-class `Error` event carrying the error message and continues the
select loop; it does not terminate, emits no `Exit` for the failure, and
does not signal session end. -/
theorem wait_error_warns_and_continues (msg : String) (rest : List PumpEvent) :
    (runPump (.waitErr msg :: rest)).events
        = .Error msg :: (runPump rest).events ∧
    (runPump (.waitErr msg :: rest)).terminated = (runPump rest).terminated ∧
    (runPump (.waitErr msg :: rest)).exitedNotified = (runPump rest).exitedNotified ∧
    countExits (runPump (.waitErr msg :: rest)).events
        = countExits (runPump rest).events := by
  refine ⟨?_, ?_, ?_, ?_⟩ <;> simp [runPump, countExits_error]

/-! ### The abort signal

The abort signal is `Arc<tokio::sync::Notify>`: `fire` is
`notify_waiters()` (`main.rs` lines 115, 126, 132) and `wait` is
`notified().await` (`command.rs` line 71). Per tokio's documented
semantics, `notify_waiters` wakes every task currently awaiting
`notified()` and stores no permit: a task that starts awaiting afterwards
is not woken by that call. The model below tracks which waiters are
registered and which have been woken; waiters are named by numbers. -/

/-- One interaction with the notifier: a task starts awaiting
`notified()` (`register`), or `notify_waiters()` is called. -/
inductive NotifyOp where
  | register (w : Nat)
  | notifyWaiters
deriving DecidableEq, Repr

/-- Notifier state: the waiters currently awaiting `notified()`, and the
waiters whose `notified().await` has completed. -/
structure NotifyState where
  waiting : List Nat
  woken : List Nat
deriving DecidableEq, Repr

/-- Effect of one interaction: registering adds a waiter;
`notify_waiters` completes every currently-registered waiter and stores
nothing for future ones. -/
def notifyStep (s : NotifyState) : NotifyOp → NotifyState
  | .register w => ⟨s.waiting ++ [w], s.woken⟩
  | .notifyWaiters => ⟨[], s.woken ++ s.waiting⟩

def runNotify (ops : List NotifyOp) : NotifyState :=
  ops.foldl notifyStep ⟨[], []⟩

/-- Waiter `w`'s `notified().await` has completed after the interaction
sequence `ops`. -/
def observes (ops : List NotifyOp) (w : Nat) : Prop :=
  w ∈ (runNotify ops).woken

instance (ops : List NotifyOp) (w : Nat) : Decidable (observes ops w) := by
  unfold observes; infer_instance

theorem woken_mono (ops : List NotifyOp) (s : NotifyState) (w : Nat)
    (h : w ∈ s.woken) : w ∈ (ops.foldl notifyStep s).woken := by
  induction ops generalizing s with
  | nil => exact h
  | cons o os ih =>
    cases o with
    | register x => exact ih _ (by simpa [notifyStep] using h)
    | notifyWaiters =>
      exact ih _ (by simp only [notifyStep, List.mem_append]; exact Or.inl h)

theorem woken_empty_of_no_fire (q : List NotifyOp) (s : NotifyState)
    (hq : NotifyOp.notifyWaiters ∉ q) (hs : s.woken = []) :
    (q.foldl notifyStep s).woken = [] := by
  induction q generalizing s with
  | nil => exact hs
  | cons o os ih =>
    cases o with
    | register x =>
      exact ih _ (fun hmem => hq (List.mem_cons_of_mem _ hmem))
        (by simpa [notifyStep] using hs)
    | notifyWaiters => exact absurd (List.mem_cons_self _ _) hq

/-- C3 counterexample: the signal is fired first and a waiter starts
waiting only afterwards; that waiter never observes the signal, so
`wait()` after `fire()` does not return immediately and the signal is
not sticky — refuting the claim that every waiter, including one that
starts waiting only after the firing, observes it. -/
theorem abort_signal_not_sticky_cex :
    NotifyOp.notifyWaiters ∈ [NotifyOp.notifyWaiters, NotifyOp.register 0] ∧
    NotifyOp.register 0 ∈ [NotifyOp.notifyWaiters, NotifyOp.register 0] ∧
    ¬ observes [NotifyOp.notifyWaiters, NotifyOp.register 0] 0 := by
  decide

/-- C3 amended: `fire()` (`notify_waiters`) wakes exactly the waiters
already waiting at that moment — any waiter registered when the fire
occurs observes the signal, whatever happens afterwards — and no waiter
observes the signal from a sequence containing no fire; but the signal
is not sticky: a `wait()` that begins only after the firing does not
observe it (no permit is stored), as the counterexample shows. -/
theorem abort_signal_wakes_current_waiters (p rest q : List NotifyOp) (w : Nat)
    (hw : w ∈ (runNotify p).waiting) (hq : NotifyOp.notifyWaiters ∉ q) :
    observes (p ++ NotifyOp.notifyWaiters :: rest) w ∧ ¬ observes q w := by
  constructor
  · have hrun : runNotify (p ++ NotifyOp.notifyWaiters :: rest)
        = rest.foldl notifyStep (notifyStep (runNotify p) .notifyWaiters) := by
      simp [runNotify, List.foldl_append]
    unfold observes
    rw [hrun]
    refine woken_mono rest _ w ?_
    simp only [notifyStep, List.mem_append]
    exact Or.inr hw
  · unfold observes
    rw [show runNotify q = q.foldl notifyStep ⟨[], []⟩ from rfl,
      woken_empty_of_no_fire q ⟨[], []⟩ hq rfl]
    exact List.not_mem_nil w

/-- Witness for C3's amended theorem: waiter 0 registers, the signal
fires; waiter 0 observes it, and in a fire-free run it observes
nothing. -/
theorem abort_signal_wakes_current_waiters_witness :
    observes ([NotifyOp.register 0] ++ NotifyOp.notifyWaiters :: []) 0 ∧
    ¬ observes [NotifyOp.register 0] 0 :=
  abort_signal_wakes_current_waiters [NotifyOp.register 0] [] [NotifyOp.register 0] 0
    (by decide) (by decide)

/-! ### Inbound frame decoding and the control loop

`handle_socket` (`main.rs` lines 88-135) decodes each inbound WebSocket
message. Text frames use an ASCII discriminator: `0;` + base64 raw
input (decoded with `base64::engine::general_purpose::STANDARD` and
`.unwrap()`), `1;` + literal string input, `2;rows;cols` resize (fields
obtained by `split(";")` indexing and `str::parse::<u16>().unwrap()`),
anything else is logged with `warn!` and dropped. The `.unwrap()` calls
mean a malformed payload under a recognized discriminator panics the
session task. -/

/-- Value of one character of the standard base64 alphabet. -/
def b64Val (c : Char) : Option Nat :=
  if 'A' ≤ c ∧ c ≤ 'Z' then some (c.toNat - 65)
  else if 'a' ≤ c ∧ c ≤ 'z' then some (c.toNat - 97 + 26)
  else if '0' ≤ c ∧ c ≤ '9' then some (c.toNat - 48 + 52)
  else if c = '+' then some 62
  else if c = '/' then some 63
  else none

/-- Decode one 4-character base64 quantum. Padding `=` is accepted only
in the final quantum and only in canonical form (the base64 crate's
`STANDARD` engine rejects non-canonical padding and nonzero trailing
bits). -/
def b64Quantum (c1 c2 c3 c4 : Char) (isLast : Bool) : Option Bytes :=
  match b64Val c1, b64Val c2 with
  | some v1, some v2 =>
    if c3 = '=' then
      if isLast ∧ c4 = '=' ∧ v2 % 16 = 0 then some [v1 * 4 + v2 / 16] else none
    else
      match b64Val c3 with
      | some v3 =>
        if c4 = '=' then
          if isLast ∧ v3 % 4 = 0 then
            some [v1 * 4 + v2 / 16, v2 % 16 * 16 + v3 / 4]
          else none
        else
          match b64Val c4 with
          | some v4 =>
              some [v1 * 4 + v2 / 16, v2 % 16 * 16 + v3 / 4, v3 % 4 * 64 + v4]
          | none => none
      | none => none
  | _, _ => none

/-- Base64 decoding of a character sequence: whole quanta only. -/
def b64DecodeChars : List Char → Option Bytes
  | [] => some []
  | c1 :: c2 :: c3 :: c4 :: rest => do
      let grp ← b64Quantum c1 c2 c3 c4 rest.isEmpty
      let more ← b64DecodeChars rest
      pure (grp ++ more)
  | _ => none

/-- Rust `str::split(';')` semantics on a character list: splitting the
empty string yields one empty field, separators delimit possibly-empty
fields. -/
def splitSemi : List Char → List (List Char)
  | [] => [[]]
  | c :: rest =>
      if c = ';' then [] :: splitSemi rest
      else
        match splitSemi rest with
        | p :: ps => (c :: p) :: ps
        | [] => [[c]]

/-- Rust `str::parse::<u16>()`: an optional leading `+`, then one or more
ASCII digits, value below `2^16`; anything else fails. -/
def parseU16 (cs : List Char) : Option Nat :=
  let ds :=
    match cs with
    | '+' :: rest => rest
    | _ => cs
  if ds.isEmpty then none
  else if ds.all Char.isDigit then
    let v := ds.foldl (fun a c => a * 10 + (c.toNat - 48)) 0
    if v < 65536 then some v else none
  else none

/-- Outcome of decoding one inbound text frame: one input command, a
logged-and-discarded frame, or a panic of the session task from one of
the `.unwrap()` calls. -/
inductive DecodeOutcome where
  | cmd (c : CommandInputItem)
  | ignored
  | panicked
deriving DecidableEq, Repr

/-- The text-frame decoder of `handle_socket` (`main.rs` lines 95-109):
discriminator dispatch on `0;`, `1;`, `2;`, with `.unwrap()` panics on
invalid base64, missing resize fields (`split[1]`/`split[2]` indexing),
or non-`u16` resize fields. -/
def decodeTextChars : List Char → DecodeOutcome
  | '0' :: ';' :: rest =>
      match b64DecodeChars rest with
      | some bytes => .cmd (.Input bytes)
      | none => .panicked
  | '1' :: ';' :: rest => .cmd (.InputString (String.mk rest))
  | '2' :: ';' :: rest =>
      match splitSemi ('2' :: ';' :: rest) with
      | _ :: r :: c :: _ =>
          match parseU16 r, parseU16 c with
          | some rows, some cols => .cmd (.Resize ⟨rows, cols⟩)
          | _, _ => .panicked
      | _ => .panicked
  | _ => .ignored

def decodeTextFrame (s : String) : DecodeOutcome :=
  decodeTextChars s.data

/-- An inbound WebSocket message (`axum::extract::ws::Message`). -/
inductive WsMessage where
  | text (s : String)
  | binary (b : Bytes)
  | close
  | ping (b : Bytes)
  | pong (b : Bytes)
deriving DecidableEq, Repr

/-- Observable effect of one iteration of `handle_socket`'s loop on an
inbound item: frames sent to the peer, commands forwarded to the input
channel, whether `aborter.notify_waiters()` ran, whether the loop
`break`s, and whether the task panicked. -/
structure LoopEffect where
  sent : List WsMessage
  inputCmds : List CommandInputItem
  abortFired : Bool
  breaksLoop : Bool
  panicked : Bool
deriving DecidableEq, Repr

/-- Effect of one successfully received message (`main.rs` lines
94-122). -/
def handleInbound : WsMessage → LoopEffect
  | .text s =>
      match decodeTextFrame s with
      | .cmd c => ⟨[], [c], false, false, false⟩
      | .ignored => ⟨[], [], false, false, false⟩
      | .panicked => ⟨[], [], false, false, true⟩
  | .binary b => ⟨[], [.Input b], false, false, false⟩
  | .close => ⟨[], [], true, true, false⟩
  | .ping b => ⟨[.pong b], [], false, false, false⟩
  | .pong _ => ⟨[], [], false, false, false⟩

/-- What `rx.next()` produced: a message, a connection-level error
(`Some(Err(e))`), or end of stream (`None`, peer gone). -/
inductive InboundResult where
  | msg (m : WsMessage)
  | connError (e : String)
  | streamEnded
deriving DecidableEq, Repr

/-- Effect of one `rx.next()` outcome (`main.rs` lines 90-134):
connection-level failures fire the abort signal and leave the loop. -/
def handleInboundResult : InboundResult → LoopEffect
  | .msg m => handleInbound m
  | .connError _ => ⟨[], [], true, true, false⟩
  | .streamEnded => ⟨[], [], true, true, false⟩

/-- C4. The decoder maps each valid inbound text frame to exactly one
input command: `"2;40;120"` to `Resize(40,120)`, `"0;aGVsbG8="` to raw
input carrying the bytes of `"hello"`, `"1;echo hi"` to string input
`"echo hi"`; an unrecognized discriminator yields no command and only a
logged warning — no send, no abort, no loop exit, no panic. -/
theorem decode_frame_examples :
    handleInbound (.text "2;40;120")
        = ⟨[], [.Resize ⟨40, 120⟩], false, false, false⟩ ∧
    handleInbound (.text "0;aGVsbG8=")
        = ⟨[], [.Input [104, 101, 108, 108, 111]], false, false, false⟩ ∧
    handleInbound (.text "1;echo hi")
        = ⟨[], [.InputString "echo hi"], false, false, false⟩ ∧
    handleInbound (.text "3;whatever") = ⟨[], [], false, false, false⟩ := by
  refine ⟨?_, ?_, ?_, ?_⟩ <;> decide

/-- C5 counterexample: three malformed single messages — `0;` with
payload that is not valid base64, `2;` with a missing field, and `2;`
with non-decimal fields — each panics the session task (an `.unwrap()`
failure) instead of being logged and discarded with the session
continuing. -/
theorem malformed_frame_panics_cex :
    (handleInbound (.text "0;!!!")).panicked = true ∧
    (handleInbound (.text "2;40")).panicked = true ∧
    (handleInbound (.text "2;a;b")).panicked = true := by
  refine ⟨?_, ?_, ?_⟩ <;> decide

/-- C5 amended: a text frame with an unrecognized discriminator is
logged and discarded and the session continues, and only
connection-level failures (transport error or disconnect) abort the
session via the abort signal; but a malformed payload under a recognized
discriminator is not discarded — it panics the session task through an
`.unwrap()`, terminating the session. -/
theorem malformed_vs_unrecognized_frames (s e : String) :
    (decodeTextFrame s = .ignored →
      handleInbound (.text s) = ⟨[], [], false, false, false⟩) ∧
    (decodeTextFrame s = .panicked →
      handleInbound (.text s) = ⟨[], [], false, false, true⟩) ∧
    handleInboundResult (.connError e) = ⟨[], [], true, true, false⟩ ∧
    handleInboundResult .streamEnded = ⟨[], [], true, true, false⟩ := by
  refine ⟨fun h => ?_, fun h => ?_, rfl, rfl⟩ <;> simp [handleInbound, h]

/-- Witness for C5's amended theorem at the unrecognized frame `"x;y"`
and the malformed frame `"0;!!!"`. -/
theorem malformed_vs_unrecognized_frames_witness :
    handleInbound (.text "x;y") = ⟨[], [], false, false, false⟩ ∧
    handleInbound (.text "0;!!!") = ⟨[], [], false, false, true⟩ :=
  ⟨(malformed_vs_unrecognized_frames "x;y" "").1 (by decide),
   (malformed_vs_unrecognized_frames "0;!!!" "").2.1 (by decide)⟩

/-- C10. A `Ping` frame is answered with a `Pong` carrying the same
payload and an incoming `Pong` is silently ignored; neither produces an
input command, fires the abort signal, exits the loop, or panics. -/
theorem ping_pong_ignored (b : Bytes) :
    handleInbound (.ping b) = ⟨[WsMessage.pong b], [], false, false, false⟩ ∧
    handleInbound (.pong b) = ⟨[], [], false, false, false⟩ :=
  ⟨rfl, rfl⟩

/-! ### Session start -/

/-- The fallible setup of `start_command` (`command.rs` lines 37-43) as
a function of the environment's outcomes: `pty_process::open()?` fails
with `openErr` when given, then the optional initial resize is attempted
(`pty.resize(size).ok()` — its failure `resizeFails` is discarded), then
`command.spawn(pts)?` fails with `spawnErr` when given. Only on success
are the pumps created; the output pump's behavior on a select schedule
`evs` is `runPump evs`. -/
def start_command (openErr : Option String) (size : Option Size)
    (resizeFails : Bool) (spawnErr : Option String)
    (evs : List PumpEvent) : Except String PumpResult :=
  match openErr with
  | some e => .error e
  | none =>
    let _resizeAttempted : Option Bool := size.map fun _ => resizeFails
    match spawnErr with
    | some e => .error e
    | none => .ok (runPump evs)

/-- `handle_socket` calls `start_command(..).unwrap()` (`main.rs` lines
82-87): on error the task panics before its loop runs, so the connection
is torn down and no pump iteration ever happens; `none` models the
panicked task. -/
def handle_socket_start (r : Except String PumpResult) : Option PumpResult :=
  match r with
  | .ok p => some p
  | .error _ => none

/-- C8. If PTY allocation or process creation fails, `start_command`
returns the error to its caller before any pump exists, and
`handle_socket` tears the connection down without running a single pump
step; the discarded outcome of the optional initial resize can never
change the result. -/
theorem spawn_failure_surfaced (e : String) (size : Option Size) (rf : Bool)
    (spawnErr openErr : Option String) (evs : List PumpEvent) :
    start_command (some e) size rf spawnErr evs = .error e ∧
    start_command none size rf (some e) evs = .error e ∧
    handle_socket_start (start_command (some e) size rf spawnErr evs) = none ∧
    handle_socket_start (start_command none size rf (some e) evs) = none ∧
    start_command openErr size rf spawnErr evs
        = start_command openErr size (!rf) spawnErr evs := by
  refine ⟨rfl, rfl, rfl, rfl, ?_⟩
  cases openErr <;> cases spawnErr <;> rfl

/-! ### The bounded input channel -/

/-- Capacity of the input command channel:
`tokio::sync::mpsc::channel::<CommandInputItem>(200)` (`command.rs`
line 84). -/
def inputChannelCapacity : Nat := 200

/-- Outcome of one bounded-mpsc send step. -/
inductive SendOutcome (α : Type) where
  | enqueued (q : List α)
  | suspended
deriving DecidableEq, Repr

/-- Model of tokio's bounded-mpsc send, as driven through the
`PollSender` wrapped around `input_tx`: with fewer queued items than the
capacity the command is appended, otherwise the producer suspends until
space frees up — the command is neither dropped nor turned into an
error. -/
def mpscSend {α : Type} (cap : Nat) (q : List α) (x : α) : SendOutcome α :=
  if q.length < cap then .enqueued (q ++ [x]) else .suspended

/-- C9. The input queue between the control loop and the input pump is
bounded at 200 pending commands; a send below the bound appends the
command, a send at the bound suspends the producer (backpressure, no
drop, no error), and no send ever grows the queue beyond 200. -/
theorem input_queue_bounded_backpressure (q : List CommandInputItem)
    (x : CommandInputItem) :
    inputChannelCapacity = 200 ∧
    (q.length < 200 →
      mpscSend inputChannelCapacity q x = .enqueued (q ++ [x])) ∧
    (200 ≤ q.length → mpscSend inputChannelCapacity q x = .suspended) ∧
    (∀ q', mpscSend inputChannelCapacity q x = .enqueued q' →
      q'.length ≤ 200) := by
  refine ⟨rfl, fun h => ?_, fun h => ?_, fun q' h => ?_⟩
  · simp [mpscSend, inputChannelCapacity, h]
  · simp [mpscSend, inputChannelCapacity, Nat.not_lt.2 h]
  · unfold mpscSend inputChannelCapacity at h
    by_cases hlt : q.length < 200
    · simp only [hlt, if_true] at h
      cases h
      simp only [List.length_append, List.length_singleton]
      omega
    · simp [hlt] at h

/-- Witness for C9: sending into the empty queue enqueues, sending into
a queue already holding 200 commands suspends. -/
theorem input_queue_bounded_backpressure_witness :
    mpscSend inputChannelCapacity [] (CommandInputItem.Input [])
        = .enqueued ([] ++ [CommandInputItem.Input []]) ∧
    mpscSend inputChannelCapacity
        (List.replicate 200 (CommandInputItem.Input []))
        (CommandInputItem.Input []) = .suspended :=
  ⟨(input_queue_bounded_backpressure [] (CommandInputItem.Input [])).2.1
      (by norm_num),
   (input_queue_bounded_backpressure
      (List.replicate 200 (CommandInputItem.Input []))
      (CommandInputItem.Input [])).2.2.1
      (by rw [List.length_replicate])⟩
